import Mathlib

/-!
Verification development for the marimapper multi-process scan-coordination
engine.  The definitions below are a shallow embedding of the Python source:

* `waitForAllResults` embeds `CoordinatorProcess._wait_for_all_results`
  (src/marimapper/coordinator_process.py, lines 116-169),
* `coordinatorScan` embeds the scan loop of `CoordinatorProcess.run`
  (lines 286-296) together with `CoordinatorProcess._detect_led_synchronized`,
* `handleRequest` embeds the detect-range branch of `DetectorProcess.run`
  (src/marimapper/detector_process.py, lines 222-299) and `detect_leds`,
* `detectAndReport` and `handleCommand` embed
  `DetectorWorkerProcess._detect_and_report` and the command dispatch of
  `DetectorWorkerProcess.run` (src/marimapper/detector_worker_process.py),
* `coordinatorInitPuts` / `detectorInitPuts` embed the initialisation
  try/except blocks of the two processes,
* `coordinatorScanRange` / `singleCameraScanRange` embed the LED ranges
  computed in `CoordinatorProcess.run` and `Scanner._init_single_camera`.

Wall-clock time is represented by rationals; each bounded `Queue.get` of the
Python loops becomes one explicit `QueueEvent` carrying the time it consumed.
Floating-point coordinates and durations are represented by rationals.
-/

namespace Marimapper

/-- A 2D image point with coordinates normalised to the unit square, as
returned by the detection primitive (`detect(frame, ...) -> Optional (u,v)`). -/
structure Point2D where
  u : ℚ
  v : ℚ
deriving DecidableEq, Repr

/-- One 2D detection record, mirroring `LED2D(led_id, view_id, point)` from
`marimapper/led.py` as used by the worker and detector processes. -/
structure LED2D where
  ledId : ℕ
  viewId : ℕ
  point : Point2D
deriving DecidableEq, Repr

/-- The messages a scan emits on every output queue (`DetectionControlEnum`
plus its payload): `DETECT led`, `SKIP led_id`, `FAIL`, `DONE view_id`,
`DELETE view_id`. -/
inductive OutMsg
  | detect (led : LED2D)
  | skip (ledId : ℕ)
  | fail
  | done (viewId : ℕ)
  | delete (viewId : ℕ)
deriving DecidableEq, Repr

/-! ## Coordinator barrier: `CoordinatorProcess._wait_for_all_results` -/

/-- A message on the coordinator's shared result queue: either
`("RESULT", camera_id, led_id, success, x, y)` or
`("ERROR", camera_id, error_msg)` (the error text is irrelevant here). -/
inductive ResultMsg
  | result (cameraId ledId : ℕ) (success : Bool) (x y : Option ℚ)
  | error (cameraId : ℕ)
deriving DecidableEq, Repr

/-- One iteration of the barrier's bounded `self._result_queue.get(...)`:
either a message arrives after `dt` seconds, or the bounded get times out
after `dt` seconds and the loop continues. -/
inductive QueueEvent
  | recv (msg : ResultMsg) (dt : ℚ)
  | timedOut (dt : ℚ)
deriving DecidableEq, Repr

/-- Seconds consumed by one queue event. -/
def QueueEvent.dt : QueueEvent → ℚ
  | .recv _ d => d
  | .timedOut d => d

/-- Whether a queue event is a message sent by camera `c`. -/
def QueueEvent.fromCamera (c : ℕ) : QueueEvent → Bool
  | .recv (.result cam _ _ _ _) _ => cam = c
  | .recv (.error cam) _ => cam = c
  | .timedOut _ => false

/-- One camera's entry in the barrier's `results` dict: `(success, x, y)`. -/
structure CamResult where
  success : Bool
  x : Option ℚ
  y : Option ℚ
deriving DecidableEq, Repr

/-- The coordinator's per-camera statistics `camera_success_counts` /
`camera_failure_counts` (total functions; only indices below `num_cameras`
are ever touched, matching the Python dicts initialised over that range). -/
structure Tallies where
  succ : ℕ → ℕ
  fail : ℕ → ℕ

/-- Tallies at process start: every camera at zero. -/
def zeroTallies : Tallies := ⟨fun _ => 0, fun _ => 0⟩

/-- Increment a counter at one camera id, as `counts[camera_id] += 1` does. -/
def bump (f : ℕ → ℕ) (c : ℕ) : ℕ → ℕ :=
  fun i => if i = c then f i + 1 else f i

/-- Python dict membership test for the assoc-list model of `results`. -/
def dictHasKey (rs : List (ℕ × CamResult)) (c : ℕ) : Bool :=
  rs.any fun p => p.1 = c

/-- Python dict assignment `results[camera_id] = r`: replace an existing
entry, otherwise append a new one (keys stay distinct). -/
def dictInsert (rs : List (ℕ × CamResult)) (c : ℕ) (r : CamResult) :
    List (ℕ × CamResult) :=
  if dictHasKey rs c then rs.map fun p => if p.1 = c then (c, r) else p
  else rs ++ [(c, r)]

/-- The barrier loop's state: the `results` dict, the statistics dicts of the
enclosing `CoordinatorProcess`, and the seconds elapsed since the barrier
started (the loop compares `timeout_time - time.time()`, i.e.
`detection_timeout - elapsed`, against zero). -/
structure BarrierState where
  results : List (ℕ × CamResult)
  tallies : Tallies
  elapsed : ℚ

/-- A fresh barrier for one LED: `results = ` empty, timer restarted, the
running statistics carried over from the previous LEDs. -/
def freshBarrier (t : Tallies) : BarrierState :=
  ⟨[], t, 0⟩

/-- Body of one iteration of `_wait_for_all_results` after `queue.get`
returned (or timed out):

* a timed-out get only advances time (`except: continue`);
* a `RESULT` whose `led_id` matches the awaited one is stored in `results`
  and bumps the camera's success or failure count;
* a `RESULT` for another LED is merely logged and discarded;
* an `ERROR` stores `(False, None, None)` for that camera and bumps its
  failure count. -/
def waitStep (ledId : ℕ) (st : BarrierState) : QueueEvent → BarrierState
  | .timedOut d => { st with elapsed := st.elapsed + d }
  | .recv m d =>
    let st := { st with elapsed := st.elapsed + d }
    match m with
    | .result cam ledRecv success x y =>
      if ledRecv = ledId then
        { st with
          results := dictInsert st.results cam ⟨success, x, y⟩
          tallies :=
            if success then ⟨bump st.tallies.succ cam, st.tallies.fail⟩
            else ⟨st.tallies.succ, bump st.tallies.fail cam⟩ }
      else st
    | .error cam =>
      { st with
        results := dictInsert st.results cam ⟨false, none, none⟩
        tallies := ⟨st.tallies.succ, bump st.tallies.fail cam⟩ }

/-- The barrier loop `while len(results) < self.num_cameras: ...` of
`_wait_for_all_results`, driven by the finite trace of queue events.  Returns
the final state together with the list of events the loop actually consumed.
The loop stops when every camera answered, or when the per-LED
`detection_timeout` has elapsed at the top-of-loop check, or when the modelled
trace runs out. -/
def waitForAllResults (numCameras ledId : ℕ) (detectionTimeout : ℚ) :
    BarrierState → List QueueEvent → BarrierState × List QueueEvent
  | st, [] => (st, [])
  | st, e :: rest =>
    if st.results.length < numCameras then
      if detectionTimeout - st.elapsed ≤ 0 then (st, [])
      else
        let out := waitForAllResults numCameras ledId detectionTimeout
          (waitStep ledId st e) rest
        (out.1, e :: out.2)
    else (st, [])

/-- A barrier state in which the loop's own exit conditions hold: either every
camera has an entry in `results`, or the timeout has elapsed. -/
def barrierResolved (numCameras : ℕ) (detectionTimeout : ℚ)
    (st : BarrierState) : Prop :=
  numCameras ≤ st.results.length ∨ detectionTimeout - st.elapsed ≤ 0

instance (n : ℕ) (T : ℚ) (st : BarrierState) :
    Decidable (barrierResolved n T st) := by
  unfold barrierResolved; infer_instance

/-! ## Coordinator scan loop: `CoordinatorProcess.run` lines 286-296 -/

/-- Observable steps of the coordinator's scan, in program order:
`backend.set_led(led_id, True)`, the `DETECT_LED` broadcast to every worker's
command queue, the return of `_wait_for_all_results` with its final state, and
`backend.set_led(led_id, False)`; `SCAN_COMPLETE` is broadcast after the loop. -/
inductive ScanAction
  | ledOn (ledId : ℕ)
  | broadcastDetect (ledId : ℕ)
  | barrierReturn (ledId : ℕ) (st : BarrierState)
  | ledOff (ledId : ℕ)
  | scanComplete

/-- The four actions of `_detect_led_synchronized` for one LED (the
stabilisation sleep sits between `ledOn` and `broadcastDetect`). -/
def ledBlock (ledId : ℕ) (st : BarrierState) : List ScanAction :=
  [ScanAction.ledOn ledId, ScanAction.broadcastDetect ledId,
   ScanAction.barrierReturn ledId st, ScanAction.ledOff ledId]

/-- The `for led_id in range(self.led_start, actual_led_end)` loop of
`CoordinatorProcess.run`: at each LED the exit event is polled first
(`if self._exit_event.is_set(): break`), then `_detect_led_synchronized`
runs one barrier on that LED's queue events, threading the per-camera
statistics through.  `fuel` is the number of LEDs left in the range. -/
def coordinatorScanAux (numCameras : ℕ) (T : ℚ) (evs : ℕ → List QueueEvent)
    (exitRequested : ℕ → Bool) : Tallies → ℕ → ℕ → Tallies × List ScanAction
  | t, _, 0 => (t, [])
  | t, led, fuel + 1 =>
    if exitRequested led then (t, [])
    else
      ((coordinatorScanAux numCameras T evs exitRequested
          (waitForAllResults numCameras led T (freshBarrier t) (evs led)).1.tallies
          (led + 1) fuel).1,
        ledBlock led (waitForAllResults numCameras led T (freshBarrier t)
            (evs led)).1 ++
          (coordinatorScanAux numCameras T evs exitRequested
            (waitForAllResults numCameras led T (freshBarrier t)
              (evs led)).1.tallies
            (led + 1) fuel).2)

/-- The whole scan phase of `CoordinatorProcess.run`: the LED loop over
`range(led_start, actual_led_end)` followed by the unconditional
`_send_scan_complete()` broadcast. -/
def coordinatorScan (numCameras : ℕ) (T : ℚ) (ledStart actualEnd : ℕ)
    (evs : ℕ → List QueueEvent) (exitRequested : ℕ → Bool) (t0 : Tallies) :
    Tallies × List ScanAction :=
  ((coordinatorScanAux numCameras T evs exitRequested t0 ledStart
      (actualEnd - ledStart)).1,
    (coordinatorScanAux numCameras T evs exitRequested t0 ledStart
      (actualEnd - ledStart)).2 ++ [ScanAction.scanComplete])

/-- The LED ids whose `set_led(led_id, True)` appears in a scan trace, in
trace order. -/
def ledsStarted (tr : List ScanAction) : List ℕ :=
  tr.filterMap fun a =>
    match a with
    | .ledOn k => some k
    | _ => none

/-- A canonical event trace in which every camera `0 .. n-1` promptly answers
the awaited LED with a successful detection, each answer taking `d` seconds. -/
def promptResponses (n ledId : ℕ) (d : ℚ) : List QueueEvent :=
  (List.range n).map fun c =>
    QueueEvent.recv (.result c ledId true (some 0) (some 0)) d

/-- The `results` dict after the first `i` prompt responses were stored. -/
def promptResults (i : ℕ) : List (ℕ × CamResult) :=
  (List.range i).map fun c => (c, ⟨true, some 0, some 0⟩)

/-- Whether a finite event trace lets the barrier for `ledId` reach one of its
own exit conditions (rather than starving the model).  Stated over the
zero-statistics start state; the barrier's `results` and clock do not depend
on the statistics. -/
def eventsResolve (numCameras ledId : ℕ) (T : ℚ)
    (evs : List QueueEvent) : Prop :=
  barrierResolved numCameras T
    (waitForAllResults numCameras ledId T (freshBarrier zeroTallies) evs).1

instance (n led : ℕ) (T : ℚ) (evs : List QueueEvent) :
    Decidable (eventsResolve n led T evs) := by
  unfold eventsResolve; infer_instance

/-! ## Single-camera detector pass: `DetectorProcess.run` lines 222-299 -/

/-- The environment one detect-range pass runs against: what `find_led`
returns during the self-test (no LED commanded on), what
`enable_and_find_led` returns for each LED of the range, and what it returns
when the movement check re-detects the first LED of the pass. -/
structure DetectorEnv where
  selfTestFinds : Bool
  detect : ℕ → Option Point2D
  redetect : Option Point2D

/-- Observable steps of one detect-range pass of `DetectorProcess.run`:
`backend_black`, `set_cam_dark`, `set_cam_default`, one detection attempt
(`findAttempt none` is the self-test's `find_led` with no LED commanded on,
`findAttempt (some i)` is `enable_and_find_led` for LED `i`), and a
`broadcast` which puts one message on every output queue in order, embedding
the `for queue in self._output_queues: queue.put(...)` loops. -/
inductive DetAction
  | blackBackend
  | setCamDark
  | setCamDefault
  | findAttempt (ledId : Option ℕ)
  | broadcast (m : OutMsg)
deriving DecidableEq, Repr

/-- The list of LED ids `range(led_id_from, led_id_to)` iterates over. -/
def detectRange (ledFrom ledTo : ℕ) : List ℕ :=
  List.range' ledFrom (ledTo - ledFrom)

/-- Per-LED body of `detect_leds`: call `enable_and_find_led`, then put
`DETECT led` (and collect the detection) or `SKIP led_id` on every output
queue.  Returns the collected successful detections in scan order and the
actions performed. -/
def detectLedsAux (env : DetectorEnv) (viewId : ℕ) :
    List ℕ → List LED2D × List DetAction
  | [] => ([], [])
  | i :: rest =>
    match env.detect i with
    | some p =>
      let led : LED2D := ⟨i, viewId, p⟩
      let out := detectLedsAux env viewId rest
      (led :: out.1,
        DetAction.findAttempt (some i) ::
          DetAction.broadcast (OutMsg.detect led) :: out.2)
    | none =>
      let out := detectLedsAux env viewId rest
      (out.1,
        DetAction.findAttempt (some i) ::
          DetAction.broadcast (OutMsg.skip i) :: out.2)

/-- The `detect_leds` helper of detector_process.py. -/
def detectLeds (env : DetectorEnv) (ledFrom ledTo viewId : ℕ) :
    List LED2D × List DetAction :=
  detectLedsAux env viewId (detectRange ledFrom ledTo)

/-- Modelled from the spec: `get_distance` lives in `marimapper/led.py`,
which is not under src/; per the spec it is the normalised distance between
two detections' image positions.  To stay in the rationals we work with the
squared Euclidean distance; comparing it against the squared threshold is
equivalent to comparing the distance itself against the threshold. -/
def getDistanceSq (a b : Point2D) : ℚ :=
  (a.u - b.u) ^ 2 + (a.v - b.v) ^ 2

/-- The movement flag computed in `DetectorProcess.run` lines 260-286:
`False` unless the check is enabled, the first LED is re-found, and
`get_distance(led_current, led_first) > 0.01`; an unfindable first LED is
explicitly treated as no movement. -/
def movementDetected (checkMovement : Bool) (env : DetectorEnv)
    (leds : List LED2D) : Bool :=
  if checkMovement then
    match leds.head? with
    | some first =>
      match env.redetect with
      | some cur => decide ((1 / 100 : ℚ) ^ 2 < getDistanceSq cur first.point)
      | none => false
    | none => false
  else false

/-- One detect-range request handled by the main loop of
`DetectorProcess.run` (lines 222-299): blacken the backend, switch the camera
dark, self-test with `find_led`; on a hit put `FAIL` on every output queue and
restore the default exposure; otherwise run `detect_leds` over the range, and
if anything was detected run the movement check on the first detection and
put `DONE view_id` (no movement) or `DELETE view_id` (movement) on every
output queue; finally restore the default exposure. -/
def handleRequest (checkMovement : Bool) (env : DetectorEnv)
    (ledFrom ledTo viewId : ℕ) : List DetAction :=
  DetAction.blackBackend :: DetAction.setCamDark :: DetAction.findAttempt none ::
    (if env.selfTestFinds then
      [DetAction.broadcast OutMsg.fail, DetAction.setCamDefault]
    else
      let scan := detectLeds env ledFrom ledTo viewId
      scan.2 ++
        (if scan.1.isEmpty then []
         else
           (if checkMovement then
              match scan.1.head? with
              | some first => [DetAction.findAttempt (some first.ledId)]
              | none => []
            else []) ++
           [DetAction.broadcast
             (if movementDetected checkMovement env scan.1 then
                OutMsg.delete viewId
              else OutMsg.done viewId)]) ++
        [DetAction.setCamDefault])

/-! ## TimeoutController and the camera worker -/

/-- Modelled from the spec: `TimeoutController` lives in
`marimapper/timeout_controller.py`, which is not under src/.  Per spec
section 4.1 it records observed detection latencies, and `.timeout` returns a
recommended wait budget derived from recent history (a smoothed maximum plus
margin), clamped to a configured minimum-to-default range. -/
structure TimeoutController where
  minTimeoutSec : ℚ
  defaultTimeoutSec : ℚ
  responseTimes : List ℚ

/-- Modelled from the spec: the raw history-derived estimate, a maximum of
the recorded response times with a fifty percent margin. -/
def TimeoutController.rawEstimate (tc : TimeoutController) : ℚ :=
  (tc.responseTimes.foldr max 0) * (3 / 2)

/-- Modelled from the spec: the current recommended wait budget, the raw
estimate clamped to the configured range. -/
def TimeoutController.timeout (tc : TimeoutController) : ℚ :=
  max tc.minTimeoutSec (min tc.defaultTimeoutSec tc.rawEstimate)

/-- Modelled from the spec: `add_response_time(dt)` records one latency. -/
def TimeoutController.addResponseTime (tc : TimeoutController) (d : ℚ) :
    TimeoutController :=
  { tc with responseTimes := d :: tc.responseTimes }

/-- The wait budget `_detect_and_report` actually uses for its retry
deadline: `max(0.1, self._timeout_controller.timeout)`
(detector_worker_process.py line 210). -/
def workerDetectBudget (tc : TimeoutController) : ℚ :=
  max (1 / 10) tc.timeout

/-- The mutable state of one `DetectorWorkerProcess` the claims are about:
the lazy `_in_scan` flag, its private timeout controller, and the
`detections_attempted` / `detections_successful` statistics. -/
structure WorkerState where
  inScan : Bool
  tc : TimeoutController
  attempted : ℕ
  successful : ℕ

/-- Observable camera and queue operations of one worker, in program order:
exposure switches, `cam.eat()` frame flushes, sleeps, frame reads with a
detection attempt, the thin `RESULT` acknowledgment sent to the coordinator's
shared queue, and the rich record put on every downstream output queue. -/
inductive WorkerAction
  | setCamDark
  | eat
  | setCamDefault
  | sleep (d : ℚ)
  | camRead
  | sendResult (ledId : ℕ) (success : Bool) (x y : Option ℚ)
  | output (m : OutMsg)
deriving DecidableEq, Repr

/-- The environment one `DETECT_LED` handling runs against: for each capture
attempt of the retry loop, the detection outcome and the seconds the capture
and detection took. -/
structure WorkerEnv where
  attempts : List (Option Point2D × ℚ)

/-- The retry loop of `_detect_and_report` (lines 213-241): attempt a
detection; on success stop with the point and the elapsed time; otherwise
stop once the deadline has passed, else sleep 0.02 s and retry.  `t` is the
time elapsed since the loop's `start_time`.  Returns the final elapsed time,
the detection if any, and the camera actions performed. -/
def detectLoop (deadline : ℚ) :
    ℚ → List (Option Point2D × ℚ) → ℚ × Option Point2D × List WorkerAction
  | t, [] => (t, none, [])
  | t, (res, dt) :: rest =>
    let t' := t + dt
    match res with
    | some p => (t', some p, [WorkerAction.camRead])
    | none =>
      if deadline ≤ t' then (t', none, [WorkerAction.camRead])
      else
        let out := detectLoop deadline (t' + 1 / 50) rest
        (out.1, out.2.1,
          WorkerAction.camRead :: WorkerAction.sleep (1 / 50) :: out.2.2)

/-- `DetectorWorkerProcess._detect_and_report` (lines 190-251): bump
`detections_attempted`; on the first detection after idling, switch the
camera dark, flush stale frames and set `_in_scan`; sleep the 0.03 s LED
stabilisation delay; run the retry loop against the adaptive deadline
`max(0.1, timeout)`; on success record the response time, send
`RESULT(success=True)` to the coordinator and `DETECT` downstream; on timeout
send `RESULT(success=False)` and `SKIP` downstream. -/
def detectAndReport (viewId : ℕ) (st : WorkerState) (env : WorkerEnv)
    (ledId : ℕ) : WorkerState × List WorkerAction :=
  let enterActs : List WorkerAction :=
    if st.inScan then [] else [WorkerAction.setCamDark, WorkerAction.eat]
  let st1 : WorkerState :=
    { st with inScan := true, attempted := st.attempted + 1 }
  let run := detectLoop (workerDetectBudget st1.tc) 0 env.attempts
  match run.2.1 with
  | some p =>
    ({ st1 with
        successful := st1.successful + 1
        tc := st1.tc.addResponseTime run.1 },
      enterActs ++ WorkerAction.sleep (3 / 100) :: run.2.2 ++
        [WorkerAction.sendResult ledId true (some p.u) (some p.v),
         WorkerAction.output (OutMsg.detect ⟨ledId, viewId, p⟩)])
  | none =>
    (st1,
      enterActs ++ WorkerAction.sleep (3 / 100) :: run.2.2 ++
        [WorkerAction.sendResult ledId false none none,
         WorkerAction.output (OutMsg.skip ledId)])

/-- Commands a worker receives on its command queue (the mask payload and the
camera-control value are irrelevant to the claims below). -/
inductive WorkerCommand
  | detectLed (ledId : ℕ)
  | scanComplete
  | setMask
  | exitLoop
deriving DecidableEq, Repr

/-- The command dispatch of `DetectorWorkerProcess.run` (lines 297-338):
`DETECT_LED` runs `_detect_and_report`; `SCAN_COMPLETE` restores the default
preview exposure, flushes stale frames and clears `_in_scan`; `SET_MASK` only
updates the mask; `EXIT` leaves the loop. -/
def handleCommand (viewId : ℕ) (st : WorkerState) (env : WorkerEnv) :
    WorkerCommand → WorkerState × List WorkerAction
  | .detectLed ledId => detectAndReport viewId st env ledId
  | .scanComplete =>
    ({ st with inScan := false },
      [WorkerAction.setCamDefault, WorkerAction.eat])
  | .setMask => (st, [])
  | .exitLoop => (st, [])

/-! ## Initialisation failure paths -/

/-- Outcomes of the fallible steps of the `try` block opening
`CoordinatorProcess.run` (lines 236-264): the backend factory call, the
`get_led_count()` call with its value, and whether `_blacken_backend` (whose
per-LED fallback can itself raise) propagates an exception after the LED
count was already queued. -/
structure CoordinatorInitEnv where
  backendOk : Bool
  ledCountOk : Bool
  ledCount : ℤ
  blackenRaises : Bool

/-- The values `CoordinatorProcess.run` puts on `_led_count_queue` during
initialisation: the LED count once known, and `-1` from the `except` handler
if anything in the `try` block raised. -/
def coordinatorInitPuts (e : CoordinatorInitEnv) : List ℤ :=
  if !e.backendOk then [-1]
  else if !e.ledCountOk then [-1]
  else if e.blackenRaises then [e.ledCount, -1]
  else [e.ledCount]

/-- Whether the coordinator's initialisation completed without raising. -/
def coordinatorInitOk (e : CoordinatorInitEnv) : Bool :=
  e.backendOk && e.ledCountOk && !e.blackenRaises

/-- Outcomes of the fallible steps of the `try` block opening
`DetectorProcess.run` (lines 186-216): backend factory, `get_led_count()`,
the `Camera(...)` constructor, and the early dark/default exposure test. -/
structure DetectorInitEnv where
  backendOk : Bool
  ledCountOk : Bool
  ledCount : ℤ
  cameraOk : Bool
  camModeOk : Bool

/-- The values `DetectorProcess.run` puts on `_led_count` during
initialisation.  The LED count is queued before the camera is constructed, so
a camera failure queues `-1` after the count. -/
def detectorInitPuts (e : DetectorInitEnv) : List ℤ :=
  if !e.backendOk then [-1]
  else if !e.ledCountOk then [-1]
  else if !e.cameraOk then [e.ledCount, -1]
  else if !e.camModeOk then [e.ledCount, -1]
  else [e.ledCount]

/-- Whether the detector's initialisation completed without raising. -/
def detectorInitOk (e : DetectorInitEnv) : Bool :=
  e.backendOk && e.ledCountOk && e.cameraOk && e.camModeOk

/-! ## Scan ranges -/

/-- The LED ids `CoordinatorProcess.run` iterates over:
`range(self.led_start, min(self.led_end, led_count))` (lines 247-288). -/
def coordinatorScanRange (ledStart ledEnd ledCount : ℕ) : List ℕ :=
  List.range' ledStart (min ledEnd ledCount - ledStart)

/-- The LED ids a single-camera pass detects: `Scanner._init_single_camera`
sets `led_id_range = range(led_start, min(led_end + 1, led_count))` (lines
166-168) and `Scanner.mainloop` requests detection of exactly
`[led_id_range.start, led_id_range.stop)`, which `detect_leds` then iterates. -/
def singleCameraScanRange (ledStart ledEnd ledCount : ℕ) : List ℕ :=
  List.range' ledStart (min (ledEnd + 1) ledCount - ledStart)

/-! ## Theorems -/

/-- C2: while the coordinator is barrier-waiting on LED `k`, a `RESULT`
message carrying any other led id `k'` is discarded: it is not added to the
`results` dict for LED `k` and changes no camera's success or failure tally
(only the clock advances).  This is the mismatch branch of
`_wait_for_all_results`, lines 143-156. -/
theorem stale_result_discarded (k k' cam : ℕ) (s : Bool) (x y : Option ℚ)
    (d : ℚ) (st : BarrierState) (h : k' ≠ k) :
    (waitStep k st (.recv (.result cam k' s x y) d)).results = st.results ∧
    (waitStep k st (.recv (.result cam k' s x y) d)).tallies.succ
      = st.tallies.succ ∧
    (waitStep k st (.recv (.result cam k' s x y) d)).tallies.fail
      = st.tallies.fail := by
  simp [waitStep, h]

/-- C2 witness: a concrete stale result, for LED 3 while LED 4 is awaited,
leaves a concrete barrier state's results and tallies untouched. -/
theorem stale_result_discarded_witness :
    (3 : ℕ) ≠ 4 ∧
    ((waitStep 4 (freshBarrier zeroTallies)
        (.recv (.result 0 3 true (some 0) (some 0)) 1)).results
      = (freshBarrier zeroTallies).results ∧
    (waitStep 4 (freshBarrier zeroTallies)
        (.recv (.result 0 3 true (some 0) (some 0)) 1)).tallies.succ
      = (freshBarrier zeroTallies).tallies.succ ∧
    (waitStep 4 (freshBarrier zeroTallies)
        (.recv (.result 0 3 true (some 0) (some 0)) 1)).tallies.fail
      = (freshBarrier zeroTallies).tallies.fail) :=
  ⟨by decide, stale_result_discarded 4 3 0 true (some 0) (some 0) 1
    (freshBarrier zeroTallies) (by decide)⟩

/-- C6 counterexample: with `led_start = 0`, `led_end = 2` and an
led count of 10, the single-camera pass scans LED 2, i.e. `led_end` itself,
while the multi-camera coordinator does not: the claim that `led_end` is
never scanned in either mode is false for the single-camera mode. -/
theorem single_camera_scans_led_end :
    2 ∈ singleCameraScanRange 0 2 10 ∧ 2 ∉ coordinatorScanRange 0 2 10 := by
  decide

/-- C6 (amended): the multi-camera coordinator scans exactly the half-open
range from `led_start` to `min led_end led_count`, so `led_end` itself is
never scanned there; the single-camera pass scans exactly the half-open range
from `led_start` to `min (led_end + 1) led_count`, which is what `detect_leds`
iterates, so `led_end` itself is scanned whenever `led_start ≤ led_end` and
`led_end < led_count`. -/
theorem scan_range_bounds (s e c k : ℕ) :
    (k ∈ coordinatorScanRange s e c ↔ s ≤ k ∧ k < min e c) ∧
    (k ∈ singleCameraScanRange s e c ↔ s ≤ k ∧ k < min (e + 1) c) ∧
    e ∉ coordinatorScanRange s e c ∧
    (s ≤ e → e < c → e ∈ singleCameraScanRange s e c) ∧
    singleCameraScanRange s e c = detectRange s (min (e + 1) c) := by
  refine ⟨?_, ?_, ?_, ?_, rfl⟩
  · rw [coordinatorScanRange, List.mem_range'_1]; omega
  · rw [singleCameraScanRange, List.mem_range'_1]; omega
  · rw [coordinatorScanRange, List.mem_range'_1]; omega
  · intro h1 h2
    rw [singleCameraScanRange, List.mem_range'_1]; omega

/-- C6 amended-claim witness at concrete bounds. -/
theorem scan_range_bounds_witness :
    (2 ∈ coordinatorScanRange 0 3 10 ↔ 0 ≤ 2 ∧ 2 < min 3 10) ∧
    (2 ∈ singleCameraScanRange 0 2 10 ↔ 0 ≤ 2 ∧ 2 < min (2 + 1) 10) ∧
    2 ∉ coordinatorScanRange 0 2 10 ∧
    (0 ≤ 2 → 2 < 10 → 2 ∈ singleCameraScanRange 0 2 10) ∧
    singleCameraScanRange 0 2 10 = detectRange 0 (min (2 + 1) 10) := by
  refine ⟨(scan_range_bounds 0 3 10 2).1, (scan_range_bounds 0 2 10 2).2.1,
    (scan_range_bounds 0 2 10 2).2.2.1, (scan_range_bounds 0 2 10 2).2.2.2.1,
    (scan_range_bounds 0 2 10 2).2.2.2.2⟩

/-- C8: the per-LED detection wait budget is strictly positive.  With a
positive configured minimum not exceeding the default, the spec-modelled
`TimeoutController.timeout` is clamped into the configured range and is
positive; and independently of the controller's current value, the worker's
retry deadline in `_detect_and_report` is computed from
`max(0.1, timeout)`, which is always at least 0.1 seconds. -/
theorem detection_budget_positive (tc : TimeoutController)
    (hmin : 0 < tc.minTimeoutSec)
    (hle : tc.minTimeoutSec ≤ tc.defaultTimeoutSec) :
    0 < tc.timeout ∧
    tc.minTimeoutSec ≤ tc.timeout ∧
    tc.timeout ≤ tc.defaultTimeoutSec ∧
    (∀ tc' : TimeoutController,
      1 / 10 ≤ workerDetectBudget tc' ∧ 0 < workerDetectBudget tc') := by
  refine ⟨lt_of_lt_of_le hmin (le_max_left _ _), le_max_left _ _, ?_, ?_⟩
  · exact max_le hle (min_le_left _ _)
  · intro tc'
    refine ⟨le_max_left _ _, lt_of_lt_of_le (by norm_num) (le_max_left _ _)⟩

/-- C8 witness: a concrete controller configured with minimum 0.1 s and
default 1.5 s (the worker's `detection_timeout`). -/
theorem detection_budget_positive_witness :
    (0 : ℚ) < (1 / 10 : ℚ) ∧ (1 / 10 : ℚ) ≤ (3 / 2 : ℚ) ∧
    (0 < (TimeoutController.mk (1 / 10) (3 / 2) []).timeout ∧
      (TimeoutController.mk (1 / 10) (3 / 2) []).minTimeoutSec
        ≤ (TimeoutController.mk (1 / 10) (3 / 2) []).timeout ∧
      (TimeoutController.mk (1 / 10) (3 / 2) []).timeout
        ≤ (TimeoutController.mk (1 / 10) (3 / 2) []).defaultTimeoutSec ∧
      (∀ tc' : TimeoutController,
        1 / 10 ≤ workerDetectBudget tc' ∧ 0 < workerDetectBudget tc')) :=
  ⟨by norm_num, by norm_num,
    detection_budget_positive (TimeoutController.mk (1 / 10) (3 / 2) [])
      (by norm_num) (by norm_num)⟩

theorem coordinatorInitPuts_failure (e : CoordinatorInitEnv)
    (h : coordinatorInitOk e = false) :
    (coordinatorInitPuts e).getLast? = some (-1) ∧
    (∃ v, (coordinatorInitPuts e).head? = some v) ∧
    (e.backendOk = false ∨ e.ledCountOk = false →
      (coordinatorInitPuts e).head? = some (-1)) := by
  obtain ⟨b1, b2, n, b3⟩ := e
  cases b1 <;> cases b2 <;> cases b3 <;>
    simp_all [coordinatorInitPuts, coordinatorInitOk]

theorem detectorInitPuts_failure (e : DetectorInitEnv)
    (h : detectorInitOk e = false) :
    (detectorInitPuts e).getLast? = some (-1) ∧
    (∃ v, (detectorInitPuts e).head? = some v) ∧
    (e.backendOk = false ∨ e.ledCountOk = false →
      (detectorInitPuts e).head? = some (-1)) := by
  obtain ⟨c1, c2, n, c3, c4⟩ := e
  cases c1 <;> cases c2 <;> cases c3 <;> cases c4 <;>
    simp_all [detectorInitPuts, detectorInitOk]

/-- C9: whenever initialisation of the coordinator or of the single-camera
detector raises, the `except` handler puts `-1` on the LED-count queue before
returning, so the queue is nonempty and a blocked `get_led_count()` receives
a value; when the failure happens before the LED count was queued (backend
construction or `get_led_count` failing), the first value received is the
negative sentinel `-1`. -/
theorem init_failure_queues_value (ec : CoordinatorInitEnv)
    (ed : DetectorInitEnv)
    (hc : coordinatorInitOk ec = false) (hd : detectorInitOk ed = false) :
    (coordinatorInitPuts ec).getLast? = some (-1) ∧
    (∃ v, (coordinatorInitPuts ec).head? = some v) ∧
    (detectorInitPuts ed).getLast? = some (-1) ∧
    (∃ v, (detectorInitPuts ed).head? = some v) ∧
    (ec.backendOk = false ∨ ec.ledCountOk = false →
      (coordinatorInitPuts ec).head? = some (-1)) ∧
    (ed.backendOk = false ∨ ed.ledCountOk = false →
      (detectorInitPuts ed).head? = some (-1)) := by
  obtain ⟨h1, h2, h3⟩ := coordinatorInitPuts_failure ec hc
  obtain ⟨g1, g2, g3⟩ := detectorInitPuts_failure ed hd
  exact ⟨h1, h2, g1, g2, h3, g3⟩

/-- C9 witness: a failing backend factory on both the coordinator and the
detector side. -/
theorem init_failure_queues_value_witness :
    coordinatorInitOk ⟨false, true, 30, false⟩ = false ∧
    detectorInitOk ⟨false, true, 30, true, true⟩ = false ∧
    ((coordinatorInitPuts ⟨false, true, 30, false⟩).getLast? = some (-1) ∧
      (∃ v, (coordinatorInitPuts ⟨false, true, 30, false⟩).head? = some v) ∧
      (detectorInitPuts ⟨false, true, 30, true, true⟩).getLast? = some (-1) ∧
      (∃ v, (detectorInitPuts ⟨false, true, 30, true, true⟩).head? = some v) ∧
      ((false = false ∨ (true : Bool) = false) →
        (coordinatorInitPuts ⟨false, true, 30, false⟩).head? = some (-1)) ∧
      ((false = false ∨ (true : Bool) = false) →
        (detectorInitPuts ⟨false, true, 30, true, true⟩).head? = some (-1))) :=
  ⟨by decide, by decide,
    init_failure_queues_value ⟨false, true, 30, false⟩
      ⟨false, true, 30, true, true⟩ (by decide) (by decide)⟩

theorem detectLedsAux_actions (env : DetectorEnv) (vid : ℕ) (l : List ℕ)
    (a : DetAction) (ha : a ∈ (detectLedsAux env vid l).2) :
    (∃ i, a = DetAction.findAttempt (some i)) ∨
    (∃ led, a = DetAction.broadcast (OutMsg.detect led)) ∨
    (∃ i, a = DetAction.broadcast (OutMsg.skip i)) := by
  induction l with
  | nil => simp [detectLedsAux] at ha
  | cons i rest ih =>
    cases h : env.detect i with
    | some p =>
      simp only [detectLedsAux, h, List.mem_cons] at ha
      rcases ha with ha | ha | ha
      · exact Or.inl ⟨i, ha⟩
      · exact Or.inr (Or.inl ⟨⟨i, vid, p⟩, ha⟩)
      · exact ih ha
    | none =>
      simp only [detectLedsAux, h, List.mem_cons] at ha
      rcases ha with ha | ha | ha
      · exact Or.inl ⟨i, ha⟩
      · exact Or.inr (Or.inr ⟨i, ha⟩)
      · exact ih ha

theorem detectLeds_no_done (env : DetectorEnv) (f t v w : ℕ) :
    DetAction.broadcast (OutMsg.done w) ∉ (detectLeds env f t v).2 := by
  intro hmem
  rcases detectLedsAux_actions env v (detectRange f t) _ hmem with
    ⟨i, hi⟩ | ⟨led, hl⟩ | ⟨i, hi⟩ <;> simp_all

theorem detectLeds_no_delete (env : DetectorEnv) (f t v w : ℕ) :
    DetAction.broadcast (OutMsg.delete w) ∉ (detectLeds env f t v).2 := by
  intro hmem
  rcases detectLedsAux_actions env v (detectRange f t) _ hmem with
    ⟨i, hi⟩ | ⟨led, hl⟩ | ⟨i, hi⟩ <;> simp_all

theorem detectLedsAux_empty_iff (env : DetectorEnv) (vid : ℕ) (l : List ℕ) :
    (detectLedsAux env vid l).1 = [] ↔ ∀ i ∈ l, env.detect i = none := by
  induction l with
  | nil => simp [detectLedsAux]
  | cons i rest ih =>
    cases h : env.detect i with
    | some p => simp [detectLedsAux, h]
    | none => simp [detectLedsAux, h, ih]

theorem detectLeds_empty_iff (env : DetectorEnv) (f t v : ℕ) :
    (detectLeds env f t v).1 = [] ↔ ∀ i ∈ detectRange f t, env.detect i = none :=
  detectLedsAux_empty_iff env v (detectRange f t)

/-- C5: on a detect-range request the single-camera detector blackens the
backend, switches to dark exposure and runs the self-test `find_led` with no
LED commanded on; if a light is found anyway the whole handling is exactly:
put `FAIL` on every output queue and restore the default exposure — no
per-LED detection happens for the requested range; and on every pass, failed
or completed, the last action before returning to the idle loop restores the
default exposure. -/
theorem self_test_abort_and_exposure (cm : Bool) (env : DetectorEnv)
    (f t v : ℕ) :
    (env.selfTestFinds = true →
      handleRequest cm env f t v =
        [DetAction.blackBackend, DetAction.setCamDark,
         DetAction.findAttempt none, DetAction.broadcast OutMsg.fail,
         DetAction.setCamDefault]) ∧
    (handleRequest cm env f t v).getLast? = some DetAction.setCamDefault := by
  constructor
  · intro h
    simp [handleRequest, h]
  · cases hst : env.selfTestFinds
    · simp only [handleRequest, hst, Bool.false_eq_true, if_false]
      rw [show DetAction.blackBackend :: DetAction.setCamDark ::
        DetAction.findAttempt none ::
          ((detectLeds env f t v).2 ++
            (if (detectLeds env f t v).1.isEmpty = true then []
             else
               (if cm then
                  match (detectLeds env f t v).1.head? with
                  | some first => [DetAction.findAttempt (some first.ledId)]
                  | none => []
                else []) ++
               [DetAction.broadcast
                 (if movementDetected cm env (detectLeds env f t v).1 then
                    OutMsg.delete v
                  else OutMsg.done v)]) ++
            [DetAction.setCamDefault])
        = (DetAction.blackBackend :: DetAction.setCamDark ::
            DetAction.findAttempt none ::
              ((detectLeds env f t v).2 ++
                (if (detectLeds env f t v).1.isEmpty = true then []
                 else
                   (if cm then
                      match (detectLeds env f t v).1.head? with
                      | some first => [DetAction.findAttempt (some first.ledId)]
                      | none => []
                    else []) ++
                   [DetAction.broadcast
                     (if movementDetected cm env (detectLeds env f t v).1 then
                        OutMsg.delete v
                      else OutMsg.done v)]))) ++ [DetAction.setCamDefault]
        from by simp]
      rw [List.getLast?_append_of_ne_nil _ (by simp)]
      rfl
    · simp [handleRequest, hst]

/-- C5 witness: a concrete pass whose self-test finds a light. -/
theorem self_test_abort_and_exposure_witness :
    ((DetectorEnv.mk true (fun _ => none) none).selfTestFinds = true →
      handleRequest true (DetectorEnv.mk true (fun _ => none) none) 0 3 7 =
        [DetAction.blackBackend, DetAction.setCamDark,
         DetAction.findAttempt none, DetAction.broadcast OutMsg.fail,
         DetAction.setCamDefault]) ∧
    (handleRequest true (DetectorEnv.mk true (fun _ => none) none) 0 3 7).getLast?
      = some DetAction.setCamDefault :=
  self_test_abort_and_exposure true (DetectorEnv.mk true (fun _ => none) none)
    0 3 7

/-- C10: a single-camera pass that completes with zero successful detections
(every LED of the range reported `SKIP`) emits neither `DONE view_id` nor
`DELETE view_id`; conversely a pass-completion message appears in the handled
request only if at least one LED of the range was detected. -/
theorem no_completion_without_detection (cm : Bool) (env : DetectorEnv)
    (f t v : ℕ) (hself : env.selfTestFinds = false) :
    ((∀ i ∈ detectRange f t, env.detect i = none) →
      DetAction.broadcast (OutMsg.done v) ∉ handleRequest cm env f t v ∧
      DetAction.broadcast (OutMsg.delete v) ∉ handleRequest cm env f t v) ∧
    ((DetAction.broadcast (OutMsg.done v) ∈ handleRequest cm env f t v ∨
      DetAction.broadcast (OutMsg.delete v) ∈ handleRequest cm env f t v) →
      ∃ i ∈ detectRange f t, env.detect i ≠ none) := by
  constructor
  · intro hnone
    have hempty : (detectLeds env f t v).1 = [] :=
      (detectLeds_empty_iff env f t v).mpr hnone
    constructor
    · intro hmem
      simp [handleRequest, hself, hempty] at hmem
      exact detectLeds_no_done env f t v v hmem
    · intro hmem
      simp [handleRequest, hself, hempty] at hmem
      exact detectLeds_no_delete env f t v v hmem
  · intro hmem
    by_contra hnot
    push_neg at hnot
    have hempty : (detectLeds env f t v).1 = [] :=
      (detectLeds_empty_iff env f t v).mpr hnot
    rcases hmem with hmem | hmem
    · simp [handleRequest, hself, hempty] at hmem
      exact detectLeds_no_done env f t v v hmem
    · simp [handleRequest, hself, hempty] at hmem
      exact detectLeds_no_delete env f t v v hmem

/-- C10 witness: a pass over LEDs 0..2 in which nothing is ever detected. -/
theorem no_completion_without_detection_witness :
    (DetectorEnv.mk false (fun _ => none) none).selfTestFinds = false ∧
    (((∀ i ∈ detectRange 0 3, (DetectorEnv.mk false (fun _ => none) none).detect i = none) →
      DetAction.broadcast (OutMsg.done 7) ∉
        handleRequest true (DetectorEnv.mk false (fun _ => none) none) 0 3 7 ∧
      DetAction.broadcast (OutMsg.delete 7) ∉
        handleRequest true (DetectorEnv.mk false (fun _ => none) none) 0 3 7) ∧
    ((DetAction.broadcast (OutMsg.done 7) ∈
        handleRequest true (DetectorEnv.mk false (fun _ => none) none) 0 3 7 ∨
      DetAction.broadcast (OutMsg.delete 7) ∈
        handleRequest true (DetectorEnv.mk false (fun _ => none) none) 0 3 7) →
      ∃ i ∈ detectRange 0 3,
        (DetectorEnv.mk false (fun _ => none) none).detect i ≠ none)) :=
  ⟨rfl, no_completion_without_detection true
    (DetectorEnv.mk false (fun _ => none) none) 0 3 7 rfl⟩

/-- C4: after a pass that detected at least one LED, with the movement check
enabled, the first detection is re-detected; writing the comparison on
squared normalised distances (equivalent to comparing the distance against
0.01): if the squared distance between the new and the originally recorded
position exceeds (1/100)^2 then `DELETE view_id` is put on every output
queue and `DONE view_id` is not; if it is at most (1/100)^2 then `DONE` is
put and `DELETE` is not; and if the LED cannot be re-found this counts as no
movement and `DONE` is put. -/
theorem movement_check_gate (env : DetectorEnv) (f t v : ℕ)
    (hself : env.selfTestFinds = false) (first : LED2D)
    (hfirst : (detectLeds env f t v).1.head? = some first) :
    (∀ cur, env.redetect = some cur →
      (1 / 100 : ℚ) ^ 2 < getDistanceSq cur first.point →
      DetAction.broadcast (OutMsg.delete v) ∈ handleRequest true env f t v ∧
      DetAction.broadcast (OutMsg.done v) ∉ handleRequest true env f t v) ∧
    (∀ cur, env.redetect = some cur →
      getDistanceSq cur first.point ≤ (1 / 100 : ℚ) ^ 2 →
      DetAction.broadcast (OutMsg.done v) ∈ handleRequest true env f t v ∧
      DetAction.broadcast (OutMsg.delete v) ∉ handleRequest true env f t v) ∧
    (env.redetect = none →
      DetAction.broadcast (OutMsg.done v) ∈ handleRequest true env f t v ∧
      DetAction.broadcast (OutMsg.delete v) ∉ handleRequest true env f t v) := by
  have hne : (detectLeds env f t v).1.isEmpty = false := by
    cases h : (detectLeds env f t v).1 with
    | nil => rw [h] at hfirst; simp at hfirst
    | cons a l => rfl
  have hmd1 : ∀ cur, env.redetect = some cur →
      movementDetected true env (detectLeds env f t v).1 =
        decide ((1 / 100 : ℚ) ^ 2 < getDistanceSq cur first.point) := by
    intro cur hcur
    simp [movementDetected, hfirst, hcur]
  have hmd0 : env.redetect = none →
      movementDetected true env (detectLeds env f t v).1 = false := by
    intro hcur
    simp [movementDetected, hfirst, hcur]
  refine ⟨?_, ?_, ?_⟩
  · intro cur hcur hdist
    have hm : movementDetected true env (detectLeds env f t v).1 = true := by
      rw [hmd1 cur hcur]; exact decide_eq_true hdist
    constructor
    · simp [handleRequest, hself, hne, hfirst, hm]
    · intro hmem
      simp [handleRequest, hself, hne, hfirst, hm] at hmem
      exact detectLeds_no_done env f t v v hmem
  · intro cur hcur hdist
    have hm : movementDetected true env (detectLeds env f t v).1 = false := by
      rw [hmd1 cur hcur]
      exact decide_eq_false (not_lt.mpr hdist)
    constructor
    · simp [handleRequest, hself, hne, hfirst, hm]
    · intro hmem
      simp [handleRequest, hself, hne, hfirst, hm] at hmem
      exact detectLeds_no_delete env f t v v hmem
  · intro hcur
    have hm := hmd0 hcur
    constructor
    · simp [handleRequest, hself, hne, hfirst, hm]
    · intro hmem
      simp [handleRequest, hself, hne, hfirst, hm] at hmem
      exact detectLeds_no_delete env f t v v hmem

/-- C4 witness: three LEDs all found at the frame centre; the recheck finds
the first LED displaced by 0.02 of the frame, more than the 1 % threshold. -/
theorem movement_check_gate_witness :
    (DetectorEnv.mk false (fun _ => some ⟨1/2, 1/2⟩)
        (some ⟨1/2, 1/2 + 2/100⟩)).selfTestFinds = false ∧
    (detectLeds (DetectorEnv.mk false (fun _ => some ⟨1/2, 1/2⟩)
        (some ⟨1/2, 1/2 + 2/100⟩)) 0 3 5).1.head?
      = some ⟨0, 5, ⟨1/2, 1/2⟩⟩ ∧
    ((∀ cur, (DetectorEnv.mk false (fun _ => some ⟨1/2, 1/2⟩)
          (some ⟨1/2, 1/2 + 2/100⟩)).redetect = some cur →
      (1 / 100 : ℚ) ^ 2 < getDistanceSq cur (LED2D.mk 0 5 ⟨1/2, 1/2⟩).point →
      DetAction.broadcast (OutMsg.delete 5) ∈
        handleRequest true (DetectorEnv.mk false (fun _ => some ⟨1/2, 1/2⟩)
          (some ⟨1/2, 1/2 + 2/100⟩)) 0 3 5 ∧
      DetAction.broadcast (OutMsg.done 5) ∉
        handleRequest true (DetectorEnv.mk false (fun _ => some ⟨1/2, 1/2⟩)
          (some ⟨1/2, 1/2 + 2/100⟩)) 0 3 5) ∧
    (∀ cur, (DetectorEnv.mk false (fun _ => some ⟨1/2, 1/2⟩)
          (some ⟨1/2, 1/2 + 2/100⟩)).redetect = some cur →
      getDistanceSq cur (LED2D.mk 0 5 ⟨1/2, 1/2⟩).point ≤ (1 / 100 : ℚ) ^ 2 →
      DetAction.broadcast (OutMsg.done 5) ∈
        handleRequest true (DetectorEnv.mk false (fun _ => some ⟨1/2, 1/2⟩)
          (some ⟨1/2, 1/2 + 2/100⟩)) 0 3 5 ∧
      DetAction.broadcast (OutMsg.delete 5) ∉
        handleRequest true (DetectorEnv.mk false (fun _ => some ⟨1/2, 1/2⟩)
          (some ⟨1/2, 1/2 + 2/100⟩)) 0 3 5) ∧
    ((DetectorEnv.mk false (fun _ => some ⟨1/2, 1/2⟩)
          (some ⟨1/2, 1/2 + 2/100⟩)).redetect = none →
      DetAction.broadcast (OutMsg.done 5) ∈
        handleRequest true (DetectorEnv.mk false (fun _ => some ⟨1/2, 1/2⟩)
          (some ⟨1/2, 1/2 + 2/100⟩)) 0 3 5 ∧
      DetAction.broadcast (OutMsg.delete 5) ∉
        handleRequest true (DetectorEnv.mk false (fun _ => some ⟨1/2, 1/2⟩)
          (some ⟨1/2, 1/2 + 2/100⟩)) 0 3 5)) :=
  ⟨rfl, rfl,
    movement_check_gate
      (DetectorEnv.mk false (fun _ => some ⟨1/2, 1/2⟩)
        (some ⟨1/2, 1/2 + 2/100⟩)) 0 3 5 rfl (LED2D.mk 0 5 ⟨1/2, 1/2⟩)
      rfl⟩

theorem detectLoop_actions_only (deadline : ℚ)
    (attempts : List (Option Point2D × ℚ)) :
    ∀ (t : ℚ) (a : WorkerAction),
      a ∈ (detectLoop deadline t attempts).2.2 →
      a = WorkerAction.camRead ∨ ∃ d, a = WorkerAction.sleep d := by
  induction attempts with
  | nil => intro t a ha; simp [detectLoop] at ha
  | cons x rest ih =>
    intro t a ha
    obtain ⟨res, dt⟩ := x
    cases res with
    | some p =>
      simp [detectLoop] at ha
      exact Or.inl ha
    | none =>
      by_cases hd : deadline ≤ t + dt
      · simp [detectLoop, hd] at ha
        exact Or.inl ha
      · simp [detectLoop, hd] at ha
        rcases ha with ha | ha | ha
        · exact Or.inl ha
        · exact Or.inr ⟨_, ha⟩
        · exact ih _ a ha

/-- C7: the worker's transition into scanning is lazy: handling a
`DETECT_LED` while idle first switches the camera dark and flushes buffered
frames, before any capture attempt, and leaves the worker in scanning state;
handling a `DETECT_LED` while already scanning performs neither the exposure
switch nor the flush again; and `SCAN_COMPLETE` restores the default preview
exposure, flushes frames, and returns the worker to the idle state. -/
theorem worker_lazy_transition (viewId : ℕ) (st : WorkerState)
    (env : WorkerEnv) (ledId : ℕ) :
    (st.inScan = false →
      (∃ acts, (detectAndReport viewId st env ledId).2 =
        WorkerAction.setCamDark :: WorkerAction.eat :: acts) ∧
      (detectAndReport viewId st env ledId).1.inScan = true) ∧
    (st.inScan = true →
      (detectAndReport viewId st env ledId).1.inScan = true ∧
      WorkerAction.setCamDark ∉ (detectAndReport viewId st env ledId).2 ∧
      WorkerAction.eat ∉ (detectAndReport viewId st env ledId).2) ∧
    ((handleCommand viewId st env WorkerCommand.scanComplete).2 =
      [WorkerAction.setCamDefault, WorkerAction.eat] ∧
      (handleCommand viewId st env WorkerCommand.scanComplete).1.inScan
        = false) := by
  refine ⟨?_, ?_, rfl, rfl⟩
  · intro h
    unfold detectAndReport
    cases hr : (detectLoop
        (workerDetectBudget
          { st with inScan := true, attempted := st.attempted + 1 }.tc)
        0 env.attempts).2.1 with
    | some p => exact ⟨⟨_, by simp [h, hr]; rfl⟩, by simp [hr]⟩
    | none => exact ⟨⟨_, by simp [h, hr]; rfl⟩, by simp [hr]⟩
  · intro h
    unfold detectAndReport
    cases hr : (detectLoop
        (workerDetectBudget
          { st with inScan := true, attempted := st.attempted + 1 }.tc)
        0 env.attempts).2.1 with
    | some p =>
      refine ⟨by simp [hr], ?_, ?_⟩ <;> intro hmem <;>
        simp [h, hr] at hmem <;>
        rcases detectLoop_actions_only _ env.attempts 0 _ hmem with h1 | h1 <;>
        simp at h1
    | none =>
      refine ⟨by simp [hr], ?_, ?_⟩ <;> intro hmem <;>
        simp [h, hr] at hmem <;>
        rcases detectLoop_actions_only _ env.attempts 0 _ hmem with h1 | h1 <;>
        simp at h1

/-- C7 witness: a concrete worker state exercising both the idle-to-scanning
transition and the already-scanning case, with one failing capture attempt. -/
theorem worker_lazy_transition_witness :
    ((WorkerState.mk false (TimeoutController.mk (1/10) (3/2) []) 0 0).inScan
        = false →
      (∃ acts,
        (detectAndReport 4
          (WorkerState.mk false (TimeoutController.mk (1/10) (3/2) []) 0 0)
          (WorkerEnv.mk [(none, 1)]) 9).2 =
          WorkerAction.setCamDark :: WorkerAction.eat :: acts) ∧
      (detectAndReport 4
        (WorkerState.mk false (TimeoutController.mk (1/10) (3/2) []) 0 0)
        (WorkerEnv.mk [(none, 1)]) 9).1.inScan = true) ∧
    ((WorkerState.mk true (TimeoutController.mk (1/10) (3/2) []) 1 0).inScan
        = true →
      (detectAndReport 4
        (WorkerState.mk true (TimeoutController.mk (1/10) (3/2) []) 1 0)
        (WorkerEnv.mk [(none, 1)]) 9).1.inScan = true ∧
      WorkerAction.setCamDark ∉
        (detectAndReport 4
          (WorkerState.mk true (TimeoutController.mk (1/10) (3/2) []) 1 0)
          (WorkerEnv.mk [(none, 1)]) 9).2 ∧
      WorkerAction.eat ∉
        (detectAndReport 4
          (WorkerState.mk true (TimeoutController.mk (1/10) (3/2) []) 1 0)
          (WorkerEnv.mk [(none, 1)]) 9).2) ∧
    ((handleCommand 4
        (WorkerState.mk true (TimeoutController.mk (1/10) (3/2) []) 1 0)
        (WorkerEnv.mk [(none, 1)]) WorkerCommand.scanComplete).2 =
      [WorkerAction.setCamDefault, WorkerAction.eat] ∧
      (handleCommand 4
        (WorkerState.mk true (TimeoutController.mk (1/10) (3/2) []) 1 0)
        (WorkerEnv.mk [(none, 1)]) WorkerCommand.scanComplete).1.inScan
        = false) :=
  ⟨(worker_lazy_transition 4
      (WorkerState.mk false (TimeoutController.mk (1/10) (3/2) []) 0 0)
      (WorkerEnv.mk [(none, 1)]) 9).1,
    (worker_lazy_transition 4
      (WorkerState.mk true (TimeoutController.mk (1/10) (3/2) []) 1 0)
      (WorkerEnv.mk [(none, 1)]) 9).2.1,
    (worker_lazy_transition 4
      (WorkerState.mk true (TimeoutController.mk (1/10) (3/2) []) 1 0)
      (WorkerEnv.mk [(none, 1)]) 9).2.2⟩

theorem waitStep_elapsed (led : ℕ) (st : BarrierState) (e : QueueEvent) :
    (waitStep led st e).elapsed = st.elapsed + e.dt := by
  cases e with
  | timedOut d => rfl
  | recv m d =>
    cases m with
    | result cam l s x y =>
      by_cases hl : l = led <;> simp [waitStep, QueueEvent.dt, hl]
    | error cam => rfl

theorem waitForAllResults_elapsed_le (n led : ℕ) (T : ℚ)
    (evs : List QueueEvent) :
    ∀ st : BarrierState,
      (∀ e ∈ evs, 0 ≤ e.dt ∧ e.dt ≤ 1 / 10) →
      (waitForAllResults n led T st evs).1.elapsed
        ≤ max st.elapsed (T + 1 / 10) := by
  induction evs with
  | nil => intro st _; exact le_max_left _ _
  | cons e rest ih =>
    intro st hdt
    rw [waitForAllResults]
    by_cases hlen : st.results.length < n
    · by_cases ht : T - st.elapsed ≤ 0
      · simp only [if_pos hlen, if_pos ht]
        exact le_max_left _ _
      · simp only [if_pos hlen, if_neg ht]
        have h1 := ih (waitStep led st e)
          (fun x hx => hdt x (List.mem_cons_of_mem _ hx))
        have h2 : (waitStep led st e).elapsed ≤ T + 1 / 10 := by
          rw [waitStep_elapsed]
          have hb := (hdt e (List.mem_cons_self _ _)).2
          push_neg at ht
          linarith
        calc (waitForAllResults n led T (waitStep led st e) rest).1.elapsed
            ≤ max (waitStep led st e).elapsed (T + 1 / 10) := h1
          _ ≤ T + 1 / 10 := max_le h2 le_rfl
          _ ≤ max st.elapsed (T + 1 / 10) := le_max_right _ _
    · simp only [if_neg hlen]
      exact le_max_left _ _

theorem dictInsert_hasKey_other (rs : List (ℕ × CamResult)) (cam c : ℕ)
    (r : CamResult) (h : cam ≠ c) :
    dictHasKey (dictInsert rs cam r) c = dictHasKey rs c := by
  unfold dictInsert
  split
  · rw [Bool.eq_iff_iff]
    simp only [dictHasKey, List.any_eq_true, List.mem_map, decide_eq_true_eq]
    constructor
    · rintro ⟨x, ⟨p, hp, rfl⟩, hx⟩
      by_cases hpc : p.1 = cam
      · rw [if_pos hpc] at hx
        exact absurd hx h
      · rw [if_neg hpc] at hx
        exact ⟨p, hp, hx⟩
    · rintro ⟨p, hp, hpc⟩
      have hne : p.1 ≠ cam := fun hh => h (hh ▸ hpc : cam = c)
      exact ⟨p, ⟨p, hp, if_neg hne⟩, hpc⟩
  · simp [dictHasKey, List.any_append, h]

theorem dictInsert_hasKey_self (rs : List (ℕ × CamResult)) (cam : ℕ)
    (r : CamResult) :
    dictHasKey (dictInsert rs cam r) cam = true := by
  unfold dictInsert
  split
  case isTrue hk =>
    simp only [dictHasKey, List.any_eq_true, List.mem_map,
      decide_eq_true_eq] at hk ⊢
    obtain ⟨p, hp, hpc⟩ := hk
    exact ⟨(cam, r), ⟨p, hp, by rw [if_pos hpc]⟩, rfl⟩
  case isFalse hk =>
    simp [dictHasKey, List.any_append]

theorem waitStep_other_camera (led c : ℕ) (st : BarrierState) (e : QueueEvent)
    (h : e.fromCamera c = false) :
    (waitStep led st e).tallies.succ c = st.tallies.succ c ∧
    (waitStep led st e).tallies.fail c = st.tallies.fail c ∧
    dictHasKey (waitStep led st e).results c = dictHasKey st.results c := by
  cases e with
  | timedOut d => exact ⟨rfl, rfl, rfl⟩
  | recv m d =>
    cases m with
    | result cam l s x y =>
      have hc : cam ≠ c := by simpa [QueueEvent.fromCamera] using h
      have hc' : c ≠ cam := Ne.symm hc
      by_cases hl : l = led
      · cases s <;>
          simp [waitStep, hl, bump, hc', dictInsert_hasKey_other _ _ _ _ hc]
      · simp [waitStep, hl]
    | error cam =>
      have hc : cam ≠ c := by simpa [QueueEvent.fromCamera] using h
      have hc' : c ≠ cam := Ne.symm hc
      simp [waitStep, bump, hc', dictInsert_hasKey_other _ _ _ _ hc]

theorem waitForAllResults_other_camera (n led : ℕ) (T : ℚ) (c : ℕ)
    (evs : List QueueEvent) :
    ∀ st, (∀ e ∈ evs, e.fromCamera c = false) →
      (waitForAllResults n led T st evs).1.tallies.succ c
        = st.tallies.succ c ∧
      (waitForAllResults n led T st evs).1.tallies.fail c
        = st.tallies.fail c ∧
      dictHasKey (waitForAllResults n led T st evs).1.results c
        = dictHasKey st.results c := by
  induction evs with
  | nil => intro st _; exact ⟨rfl, rfl, rfl⟩
  | cons e rest ih =>
    intro st hmiss
    rw [waitForAllResults]
    by_cases hlen : st.results.length < n
    · by_cases ht : T - st.elapsed ≤ 0
      · rw [if_pos hlen, if_pos ht]
        exact ⟨rfl, rfl, rfl⟩
      · rw [if_pos hlen, if_neg ht]
        obtain ⟨s1, s2, s3⟩ :=
          waitStep_other_camera led c st e (hmiss e (List.mem_cons_self _ _))
        obtain ⟨r1, r2, r3⟩ := ih (waitStep led st e)
          (fun x hx => hmiss x (List.mem_cons_of_mem _ hx))
        exact ⟨r1.trans s1, r2.trans s2, r3.trans s3⟩
    · rw [if_neg hlen]
      exact ⟨rfl, rfl, rfl⟩

theorem waitStep_hasKey_mono (led c : ℕ) (st : BarrierState) (e : QueueEvent)
    (h : dictHasKey st.results c = true) :
    dictHasKey (waitStep led st e).results c = true := by
  cases e with
  | timedOut d => exact h
  | recv m d =>
    cases m with
    | result cam l s x y =>
      by_cases hl : l = led
      · by_cases hc : cam = c
        · subst hc; simp [waitStep, hl, dictInsert_hasKey_self]
        · simp [waitStep, hl, dictInsert_hasKey_other _ _ _ _ hc, h]
      · simpa [waitStep, hl] using h
    | error cam =>
      by_cases hc : cam = c
      · subst hc; simp [waitStep, dictInsert_hasKey_self]
      · simp [waitStep, dictInsert_hasKey_other _ _ _ _ hc, h]

theorem waitForAllResults_hasKey_mono (n led : ℕ) (T : ℚ) (c : ℕ)
    (evs : List QueueEvent) :
    ∀ st, dictHasKey st.results c = true →
      dictHasKey (waitForAllResults n led T st evs).1.results c = true := by
  induction evs with
  | nil => intro st h; exact h
  | cons e rest ih =>
    intro st h
    rw [waitForAllResults]
    by_cases hlen : st.results.length < n
    · by_cases ht : T - st.elapsed ≤ 0
      · simp only [if_pos hlen, if_pos ht]; exact h
      · simp only [if_pos hlen, if_neg ht]
        exact ih _ (waitStep_hasKey_mono led c st e h)
    · simp only [if_neg hlen]; exact h

theorem waitForAllResults_consumed_result (n led : ℕ) (T : ℚ)
    (evs : List QueueEvent) :
    ∀ st c' s x y d,
      QueueEvent.recv (.result c' led s x y) d
        ∈ (waitForAllResults n led T st evs).2 →
      dictHasKey (waitForAllResults n led T st evs).1.results c' = true := by
  induction evs with
  | nil =>
    intro st c' s x y d hmem
    simp [waitForAllResults] at hmem
  | cons e rest ih =>
    intro st c' s x y d hmem
    rw [waitForAllResults] at hmem ⊢
    by_cases hlen : st.results.length < n
    · by_cases ht : T - st.elapsed ≤ 0
      · simp only [if_pos hlen, if_pos ht] at hmem
        simp at hmem
      · simp only [if_pos hlen, if_neg ht] at hmem ⊢
        rcases List.mem_cons.mp hmem with heq | hmem'
        · have hk : dictHasKey (waitStep led st e).results c' = true := by
            rw [← heq]
            simp [waitStep, dictInsert_hasKey_self]
          exact waitForAllResults_hasKey_mono n led T c' rest _ hk
        · exact ih _ c' s x y d hmem'
    · simp only [if_neg hlen] at hmem
      simp at hmem

/-- C1 counterexample: two cameras, `detection_timeout` 1 s; camera 0
answers for LED 0 after 0.05 s, camera 1 never answers, and the bounded
queue polls elapse 0.1 s each.  After the barrier times out, camera 1 is
missing from the results — yet its failure tally is 0, not the 1 the claim
requires: a camera missing at timeout is logged but its failure tally is not
incremented. -/
theorem barrier_timeout_tally_counterexample :
    (waitForAllResults 2 0 1 (freshBarrier zeroTallies)
      [QueueEvent.recv (.result 0 0 true (some 0) (some 0)) (1/20),
       QueueEvent.timedOut (1/10), QueueEvent.timedOut (1/10),
       QueueEvent.timedOut (1/10), QueueEvent.timedOut (1/10),
       QueueEvent.timedOut (1/10), QueueEvent.timedOut (1/10),
       QueueEvent.timedOut (1/10), QueueEvent.timedOut (1/10),
       QueueEvent.timedOut (1/10), QueueEvent.timedOut (1/10)]).1.tallies.fail 1
      = 0 ∧
    barrierResolved 2 1
      (waitForAllResults 2 0 1 (freshBarrier zeroTallies)
        [QueueEvent.recv (.result 0 0 true (some 0) (some 0)) (1/20),
         QueueEvent.timedOut (1/10), QueueEvent.timedOut (1/10),
         QueueEvent.timedOut (1/10), QueueEvent.timedOut (1/10),
         QueueEvent.timedOut (1/10), QueueEvent.timedOut (1/10),
         QueueEvent.timedOut (1/10), QueueEvent.timedOut (1/10),
         QueueEvent.timedOut (1/10), QueueEvent.timedOut (1/10)]).1 ∧
    dictHasKey
      (waitForAllResults 2 0 1 (freshBarrier zeroTallies)
        [QueueEvent.recv (.result 0 0 true (some 0) (some 0)) (1/20),
         QueueEvent.timedOut (1/10), QueueEvent.timedOut (1/10),
         QueueEvent.timedOut (1/10), QueueEvent.timedOut (1/10),
         QueueEvent.timedOut (1/10), QueueEvent.timedOut (1/10),
         QueueEvent.timedOut (1/10), QueueEvent.timedOut (1/10),
         QueueEvent.timedOut (1/10), QueueEvent.timedOut (1/10)]).1.results 1
      = false := by
  norm_num [waitForAllResults, waitStep, freshBarrier, zeroTallies,
    dictInsert, dictHasKey, bump, barrierResolved]

/-- C1 (amended): when the per-LED barrier runs against a trace in which
camera `c` never responds, camera `c`'s success and failure tallies are both
unchanged — in particular the failure tally is not incremented — and `c` has
no entry in the returned results (it is only logged); the missing camera
does not block the others, since every matching `RESULT` the barrier consumed
is present in the returned results; and with each bounded queue get taking at
most the 0.1 s poll cap, the barrier returns with at most
`detection_timeout + 0.1` seconds on its clock, so the coordinator advances
past the LED within that bound. -/
theorem barrier_timeout_missing_camera (n led : ℕ) (T : ℚ) (t : Tallies)
    (evs : List QueueEvent) (c : ℕ) (hT : 0 ≤ T)
    (hdt : ∀ e ∈ evs, 0 ≤ e.dt ∧ e.dt ≤ 1 / 10)
    (hmiss : ∀ e ∈ evs, e.fromCamera c = false) :
    (waitForAllResults n led T (freshBarrier t) evs).1.tallies.succ c
      = t.succ c ∧
    (waitForAllResults n led T (freshBarrier t) evs).1.tallies.fail c
      = t.fail c ∧
    dictHasKey (waitForAllResults n led T (freshBarrier t) evs).1.results c
      = false ∧
    (waitForAllResults n led T (freshBarrier t) evs).1.elapsed ≤ T + 1 / 10 ∧
    (∀ c' s x y d, QueueEvent.recv (.result c' led s x y) d
        ∈ (waitForAllResults n led T (freshBarrier t) evs).2 →
      dictHasKey (waitForAllResults n led T (freshBarrier t) evs).1.results c'
        = true) := by
  obtain ⟨h1, h2, h3⟩ :=
    waitForAllResults_other_camera n led T c evs (freshBarrier t) hmiss
  refine ⟨h1, h2, ?_, ?_, ?_⟩
  · rw [h3]; rfl
  · have hle := waitForAllResults_elapsed_le n led T evs (freshBarrier t) hdt
    have hmax : max (freshBarrier t).elapsed (T + 1 / 10) = T + 1 / 10 := by
      apply max_eq_right
      show (0 : ℚ) ≤ T + 1 / 10
      linarith
    rw [hmax] at hle
    exact hle
  · intro c' s x y d hm
    exact waitForAllResults_consumed_result n led T evs (freshBarrier t)
      c' s x y d hm

/-- C1 amended-claim witness: camera 0 responds once for LED 0, camera 1 is
silent, timeout 1 s. -/
theorem barrier_timeout_missing_camera_witness :
    (0 : ℚ) ≤ 1 ∧
    (∀ e ∈ [QueueEvent.recv (.result 0 0 true (some 0) (some 0)) (1/20)],
      0 ≤ e.dt ∧ e.dt ≤ 1 / 10) ∧
    (∀ e ∈ [QueueEvent.recv (.result 0 0 true (some 0) (some 0)) (1/20)],
      e.fromCamera 1 = false) ∧
    ((waitForAllResults 2 0 1 (freshBarrier zeroTallies)
        [QueueEvent.recv (.result 0 0 true (some 0) (some 0)) (1/20)]).1.tallies.succ 1
      = zeroTallies.succ 1 ∧
    (waitForAllResults 2 0 1 (freshBarrier zeroTallies)
        [QueueEvent.recv (.result 0 0 true (some 0) (some 0)) (1/20)]).1.tallies.fail 1
      = zeroTallies.fail 1 ∧
    dictHasKey (waitForAllResults 2 0 1 (freshBarrier zeroTallies)
        [QueueEvent.recv (.result 0 0 true (some 0) (some 0)) (1/20)]).1.results 1
      = false ∧
    (waitForAllResults 2 0 1 (freshBarrier zeroTallies)
        [QueueEvent.recv (.result 0 0 true (some 0) (some 0)) (1/20)]).1.elapsed
      ≤ 1 + 1 / 10 ∧
    (∀ c' s x y d, QueueEvent.recv (.result c' 0 s x y) d
        ∈ (waitForAllResults 2 0 1 (freshBarrier zeroTallies)
            [QueueEvent.recv (.result 0 0 true (some 0) (some 0)) (1/20)]).2 →
      dictHasKey (waitForAllResults 2 0 1 (freshBarrier zeroTallies)
          [QueueEvent.recv (.result 0 0 true (some 0) (some 0)) (1/20)]).1.results c'
        = true)) :=
  ⟨by norm_num,
    by intro e he; simp at he; subst he; norm_num [QueueEvent.dt],
    by intro e he; simp at he; subst he; rfl,
    barrier_timeout_missing_camera 2 0 1 zeroTallies
      [QueueEvent.recv (.result 0 0 true (some 0) (some 0)) (1/20)] 1
      (by norm_num)
      (by intro e he; simp at he; subst he; norm_num [QueueEvent.dt])
      (by intro e he; simp at he; subst he; rfl)⟩

theorem waitStep_indep (led : ℕ) (rs : List (ℕ × CamResult)) (el : ℚ)
    (t t' : Tallies) (e : QueueEvent) :
    (waitStep led ⟨rs, t, el⟩ e).results
      = (waitStep led ⟨rs, t', el⟩ e).results ∧
    (waitStep led ⟨rs, t, el⟩ e).elapsed
      = (waitStep led ⟨rs, t', el⟩ e).elapsed := by
  cases e with
  | timedOut d => exact ⟨rfl, rfl⟩
  | recv m d =>
    cases m with
    | result cam l s x y =>
      by_cases hl : l = led <;> simp [waitStep, hl]
    | error cam => exact ⟨rfl, rfl⟩

theorem waitForAllResults_indep (n led : ℕ) (T : ℚ) (evs : List QueueEvent) :
    ∀ (rs : List (ℕ × CamResult)) (el : ℚ) (t t' : Tallies),
      (waitForAllResults n led T ⟨rs, t, el⟩ evs).1.results =
        (waitForAllResults n led T ⟨rs, t', el⟩ evs).1.results ∧
      (waitForAllResults n led T ⟨rs, t, el⟩ evs).1.elapsed =
        (waitForAllResults n led T ⟨rs, t', el⟩ evs).1.elapsed := by
  induction evs with
  | nil => intro rs el t t'; exact ⟨rfl, rfl⟩
  | cons e rest ih =>
    intro rs el t t'
    rw [waitForAllResults, waitForAllResults]
    by_cases hlen : rs.length < n
    · by_cases ht : T - el ≤ 0
      · rw [if_pos hlen, if_pos hlen, if_pos ht, if_pos ht]
        exact ⟨rfl, rfl⟩
      · rw [if_pos hlen, if_pos hlen, if_neg ht, if_neg ht]
        obtain ⟨hr, he⟩ := waitStep_indep led rs el t t' e
        obtain ⟨k1, k2⟩ := ih (waitStep led ⟨rs, t, el⟩ e).results
          (waitStep led ⟨rs, t, el⟩ e).elapsed
          (waitStep led ⟨rs, t, el⟩ e).tallies
          (waitStep led ⟨rs, t', el⟩ e).tallies
        have hBC : (⟨(waitStep led ⟨rs, t, el⟩ e).results,
            (waitStep led ⟨rs, t', el⟩ e).tallies,
            (waitStep led ⟨rs, t, el⟩ e).elapsed⟩ : BarrierState) =
            ⟨(waitStep led ⟨rs, t', el⟩ e).results,
              (waitStep led ⟨rs, t', el⟩ e).tallies,
              (waitStep led ⟨rs, t', el⟩ e).elapsed⟩ := by rw [hr, he]
        constructor
        · calc (waitForAllResults n led T
                (waitStep led ⟨rs, t, el⟩ e) rest).1.results
              = (waitForAllResults n led T
                  ⟨(waitStep led ⟨rs, t, el⟩ e).results,
                    (waitStep led ⟨rs, t', el⟩ e).tallies,
                    (waitStep led ⟨rs, t, el⟩ e).elapsed⟩ rest).1.results := k1
            _ = (waitForAllResults n led T
                  (waitStep led ⟨rs, t', el⟩ e) rest).1.results := by rw [hBC]
        · calc (waitForAllResults n led T
                (waitStep led ⟨rs, t, el⟩ e) rest).1.elapsed
              = (waitForAllResults n led T
                  ⟨(waitStep led ⟨rs, t, el⟩ e).results,
                    (waitStep led ⟨rs, t', el⟩ e).tallies,
                    (waitStep led ⟨rs, t, el⟩ e).elapsed⟩ rest).1.elapsed := k2
            _ = (waitForAllResults n led T
                  (waitStep led ⟨rs, t', el⟩ e) rest).1.elapsed := by rw [hBC]
    · rw [if_neg hlen, if_neg hlen]
      exact ⟨rfl, rfl⟩

theorem eventsResolve_any_tallies (n led : ℕ) (T : ℚ)
    (evs : List QueueEvent) (h : eventsResolve n led T evs) (t : Tallies) :
    barrierResolved n T
      (waitForAllResults n led T (freshBarrier t) evs).1 := by
  unfold eventsResolve barrierResolved at h
  unfold barrierResolved
  obtain ⟨hr, he⟩ := waitForAllResults_indep n led T evs [] 0 t zeroTallies
  rcases h with h | h
  · left
    rw [show (waitForAllResults n led T (freshBarrier t) evs).1.results
        = (waitForAllResults n led T (freshBarrier zeroTallies) evs).1.results
      from hr]
    exact h
  · right
    rw [show (waitForAllResults n led T (freshBarrier t) evs).1.elapsed
        = (waitForAllResults n led T (freshBarrier zeroTallies) evs).1.elapsed
      from he]
    exact h

theorem promptResults_length (i : ℕ) : (promptResults i).length = i := by
  simp [promptResults]

theorem promptResults_hasKey_self_false (i : ℕ) :
    dictHasKey (promptResults i) i = false := by
  rw [Bool.eq_false_iff]
  intro hk
  simp only [dictHasKey, promptResults, List.any_eq_true, List.mem_map,
    decide_eq_true_eq] at hk
  obtain ⟨p, ⟨c, hc, rfl⟩, hp⟩ := hk
  rw [List.mem_range] at hc
  have hci : c = i := hp
  omega

theorem promptResults_hasKey (n c : ℕ) (hc : c < n) :
    dictHasKey (promptResults n) c = true := by
  simp only [dictHasKey, promptResults, List.any_eq_true, List.mem_map,
    decide_eq_true_eq]
  exact ⟨(c, ⟨true, some 0, some 0⟩), ⟨c, List.mem_range.mpr hc, rfl⟩, rfl⟩

theorem promptResponses_run_aux (n led : ℕ) (T d : ℚ) (hd : 0 ≤ d)
    (hT : 0 < T) (hnd : (n : ℚ) * d ≤ T) :
    ∀ (m i : ℕ) (t : Tallies), i + m = n →
      (waitForAllResults n led T ⟨promptResults i, t, (i : ℚ) * d⟩
        ((List.range' i m).map fun c =>
          QueueEvent.recv (.result c led true (some 0) (some 0)) d)).1.results
      = promptResults n := by
  intro m
  induction m with
  | zero =>
    intro i t hi
    rw [Nat.add_zero] at hi
    subst hi
    rfl
  | succ m ih =>
    intro i t hi
    have hilt : i < n := by omega
    have hid : (i : ℚ) * d < T := by
      rcases lt_or_eq_of_le hd with hd' | hd'
      · have h1 : ((i : ℚ) + 1) * d ≤ (n : ℚ) * d := by
          apply mul_le_mul_of_nonneg_right _ hd
          exact_mod_cast Nat.succ_le_of_lt hilt
        nlinarith
      · rw [← hd']
        simpa using hT
    rw [List.range'_succ i m 1, List.map_cons, waitForAllResults]
    rw [if_pos (by rw [promptResults_length]; exact hilt)]
    rw [if_neg (show ¬(T - ((i : ℚ) * d) ≤ 0) by push_neg; linarith)]
    have hins : dictInsert (promptResults i) i ⟨true, some 0, some 0⟩
        = promptResults (i + 1) := by
      unfold dictInsert
      rw [promptResults_hasKey_self_false]
      simp only [Bool.false_eq_true, if_false]
      unfold promptResults
      rw [List.range_succ, List.map_append]
      rfl
    have helap : (i : ℚ) * d + d = ((i + 1 : ℕ) : ℚ) * d := by
      push_cast
      ring
    have hstep : waitStep led ⟨promptResults i, t, (i : ℚ) * d⟩
        (QueueEvent.recv (.result i led true (some 0) (some 0)) d)
        = ⟨promptResults (i + 1), ⟨bump t.succ i, t.fail⟩,
            ((i + 1 : ℕ) : ℚ) * d⟩ := by
      simp only [waitStep, if_true]
      rw [hins, helap]
    rw [hstep]
    exact ih (i + 1) ⟨bump t.succ i, t.fail⟩ (by omega)

theorem promptResponses_run (n led : ℕ) (T d : ℚ) (hd : 0 ≤ d) (hT : 0 < T)
    (hnd : (n : ℚ) * d ≤ T) (t : Tallies) :
    (waitForAllResults n led T (freshBarrier t)
      (promptResponses n led d)).1.results = promptResults n := by
  have h := promptResponses_run_aux n led T d hd hT hnd n 0 t (by omega)
  rw [show ((0 : ℕ) : ℚ) * d = (0 : ℚ) from by push_cast; ring] at h
  rw [show List.range' 0 n = List.range n from (List.range_eq_range' n).symm] at h
  exact h

theorem eventsResolve_prompt (n led : ℕ) (T d : ℚ) (hd : 0 ≤ d) (hT : 0 < T)
    (hnd : (n : ℚ) * d ≤ T) :
    eventsResolve n led T (promptResponses n led d) := by
  unfold eventsResolve barrierResolved
  left
  rw [promptResponses_run n led T d hd hT hnd zeroTallies,
    promptResults_length]

theorem ledsStarted_ledBlock (led : ℕ) (st : BarrierState) :
    ledsStarted (ledBlock led st) = [led] := rfl

theorem ledsStarted_append (l1 l2 : List ScanAction) :
    ledsStarted (l1 ++ l2) = ledsStarted l1 ++ ledsStarted l2 :=
  List.filterMap_append _ _ _

theorem ledsStarted_scanAux (n : ℕ) (T : ℚ) (evs : ℕ → List QueueEvent)
    (ex : ℕ → Bool) :
    ∀ (fuel led : ℕ) (t : Tallies),
      ∃ m, ledsStarted (coordinatorScanAux n T evs ex t led fuel).2 =
        List.range' led m ∧ m ≤ fuel := by
  intro fuel
  induction fuel with
  | zero => intro led t; exact ⟨0, rfl, Nat.le_refl 0⟩
  | succ f ih =>
    intro led t
    by_cases hex : ex led = true
    · refine ⟨0, ?_, Nat.zero_le _⟩
      rw [coordinatorScanAux, if_pos hex]
      rfl
    · obtain ⟨m, hm, hle⟩ := ih (led + 1)
        (waitForAllResults n led T (freshBarrier t) (evs led)).1.tallies
      refine ⟨m + 1, ?_, by omega⟩
      rw [coordinatorScanAux, if_neg hex]
      rw [show ((coordinatorScanAux n T evs ex
          (waitForAllResults n led T (freshBarrier t) (evs led)).1.tallies
          (led + 1) f).1,
        ledBlock led (waitForAllResults n led T (freshBarrier t) (evs led)).1 ++
          (coordinatorScanAux n T evs ex
            (waitForAllResults n led T (freshBarrier t) (evs led)).1.tallies
            (led + 1) f).2).2
        = ledBlock led (waitForAllResults n led T (freshBarrier t)
            (evs led)).1 ++
          (coordinatorScanAux n T evs ex
            (waitForAllResults n led T (freshBarrier t) (evs led)).1.tallies
            (led + 1) f).2 from rfl]
      rw [ledsStarted_append, ledsStarted_ledBlock, hm,
        List.range'_succ led m 1]
      rfl

theorem barrierReturn_before_ledOn (n : ℕ) (T : ℚ)
    (evs : ℕ → List QueueEvent) (ex : ℕ → Bool) (k : ℕ)
    (hres : ∀ led, eventsResolve n led T (evs led)) :
    ∀ (fuel led : ℕ) (t : Tallies) (p q : List ScanAction),
      led ≤ k →
      (coordinatorScanAux n T evs ex t led fuel).2 = p ++ q →
      ScanAction.ledOn (k + 1) ∈ p →
      ∃ st, ScanAction.barrierReturn k st ∈ p ∧ barrierResolved n T st ∧
        st.results = (waitForAllResults n k T (freshBarrier zeroTallies)
          (evs k)).1.results := by
  intro fuel
  induction fuel with
  | zero =>
    intro led t p q hlk heq hmem
    rw [coordinatorScanAux] at heq
    have hp : p = [] := by
      cases p with
      | nil => rfl
      | cons a l => simp at heq
    subst hp
    simp at hmem
  | succ f ih =>
    intro led t p q hlk heq hmem
    rw [coordinatorScanAux] at heq
    by_cases hex : ex led = true
    · rw [if_pos hex] at heq
      have hp : p = [] := by
        cases p with
        | nil => rfl
        | cons a l => simp at heq
      subst hp
      simp at hmem
    · rw [if_neg hex] at heq
      replace heq : ledBlock led
          (waitForAllResults n led T (freshBarrier t) (evs led)).1 ++
          (coordinatorScanAux n T evs ex
            (waitForAllResults n led T (freshBarrier t) (evs led)).1.tallies
            (led + 1) f).2 = p ++ q := heq
      rcases List.append_eq_append_iff.mp heq with ⟨a, ha1, ha2⟩ | ⟨a, ha1, ha2⟩
      · -- p = ledBlock ++ a
        rcases eq_or_lt_of_le hlk with heqk | hltk
        · subst heqk
          refine ⟨(waitForAllResults n led T (freshBarrier t) (evs led)).1,
            ?_, ?_, ?_⟩
          · rw [ha1]
            exact List.mem_append_left _ (by simp [ledBlock])
          · exact eventsResolve_any_tallies n led T (evs led) (hres led) t
          · exact (waitForAllResults_indep n led T (evs led) [] 0
              t zeroTallies).1
        · have hmem' : ScanAction.ledOn (k + 1) ∈ a := by
            rw [ha1] at hmem
            rcases List.mem_append.mp hmem with h | h
            · exfalso
              simp [ledBlock] at h
              omega
            · exact h
          obtain ⟨st, hst1, hst2, hst3⟩ := ih (led + 1)
            (waitForAllResults n led T (freshBarrier t) (evs led)).1.tallies
            a q (by omega) ha2 hmem'
          exact ⟨st, by rw [ha1]; exact List.mem_append_right _ hst1,
            hst2, hst3⟩
      · -- p is a prefix of the ledBlock
        exfalso
        have hmem' : ScanAction.ledOn (k + 1) ∈ ledBlock led
            (waitForAllResults n led T (freshBarrier t) (evs led)).1 := by
          rw [ha1]
          exact List.mem_append_left _ hmem
        simp [ledBlock] at hmem'
        omega

/-- C3: the Coordinator's scan trace starts LEDs strictly in increasing
order — the started LEDs are exactly an initial segment of the range — and
LED `k+1` is never started before LED `k`'s barrier has resolved (by
completion of all cameras or by timeout): every prefix of the trace
containing `ledOn (k+1)` already contains the return of LED `k`'s barrier in
a resolved state; moreover, when LED `k`'s events are one timely response
from each of the `n` cameras, that returned barrier state contains a
consumed result for every camera, so all results for `k` are consumed before
LED `k+1` starts. -/
theorem coordinator_strict_order (n : ℕ) (T : ℚ) (ledStart actualEnd : ℕ)
    (evs : ℕ → List QueueEvent) (ex : ℕ → Bool) (t0 : Tallies) (k : ℕ)
    (hres : ∀ led, eventsResolve n led T (evs led)) (hk : ledStart ≤ k) :
    (∃ m, ledsStarted (coordinatorScan n T ledStart actualEnd evs ex t0).2 =
      List.range' ledStart m ∧ m ≤ actualEnd - ledStart) ∧
    List.Pairwise (· < ·)
      (ledsStarted (coordinatorScan n T ledStart actualEnd evs ex t0).2) ∧
    (∀ p q, (coordinatorScan n T ledStart actualEnd evs ex t0).2 = p ++ q →
      ScanAction.ledOn (k + 1) ∈ p →
      ∃ st, ScanAction.barrierReturn k st ∈ p ∧ barrierResolved n T st ∧
        (∀ d : ℚ, 0 ≤ d → (n : ℚ) * d ≤ T → 0 < T →
          evs k = promptResponses n k d →
          ∀ c, c < n → dictHasKey st.results c = true)) := by
  obtain ⟨m, hm, hle⟩ :=
    ledsStarted_scanAux n T evs ex (actualEnd - ledStart) ledStart t0
  have htrace : ledsStarted (coordinatorScan n T ledStart actualEnd evs ex
      t0).2 = List.range' ledStart m := by
    rw [show (coordinatorScan n T ledStart actualEnd evs ex t0).2
      = (coordinatorScanAux n T evs ex t0 ledStart (actualEnd - ledStart)).2
        ++ [ScanAction.scanComplete] from rfl]
    rw [ledsStarted_append, hm]
    simp [ledsStarted]
  refine ⟨⟨m, htrace, hle⟩, ?_, ?_⟩
  · rw [htrace]
    exact List.pairwise_lt_range' _ _
  · intro p q htr hmem
    have hbody := htr
    rw [show (coordinatorScan n T ledStart actualEnd evs ex t0).2
      = (coordinatorScanAux n T evs ex t0 ledStart (actualEnd - ledStart)).2
        ++ [ScanAction.scanComplete] from rfl] at hbody
    have hfind : ∃ st, ScanAction.barrierReturn k st ∈ p ∧
        barrierResolved n T st ∧
        st.results = (waitForAllResults n k T (freshBarrier zeroTallies)
          (evs k)).1.results := by
      rcases List.append_eq_append_iff.mp hbody with ⟨a, ha1, ha2⟩ |
        ⟨a, ha1, ha2⟩
      · -- p extends past the aux trace into the scanComplete suffix
        have hmem' : ScanAction.ledOn (k + 1) ∈
            (coordinatorScanAux n T evs ex t0 ledStart
              (actualEnd - ledStart)).2 := by
          rw [ha1] at hmem
          rcases List.mem_append.mp hmem with h | h
          · exact h
          · exfalso
            have ha : a = [] ∨ a = [ScanAction.scanComplete] := by
              cases a with
              | nil => exact Or.inl rfl
              | cons b l =>
                right
                injection ha2 with h1 h2
                obtain ⟨hl, hq⟩ := List.append_eq_nil.mp h2.symm
                rw [hl, ← h1]
            rcases ha with ha | ha <;> subst ha <;> simp at h
        obtain ⟨st, hst1, hst2, hst3⟩ := barrierReturn_before_ledOn n T evs
          ex k hres (actualEnd - ledStart) ledStart t0
          (coordinatorScanAux n T evs ex t0 ledStart
            (actualEnd - ledStart)).2 [] hk (by simp) hmem'
        exact ⟨st, by rw [ha1]; exact List.mem_append_left _ hst1,
          hst2, hst3⟩
      · exact barrierReturn_before_ledOn n T evs ex k hres
          (actualEnd - ledStart) ledStart t0 p a hk ha1 hmem
    obtain ⟨st, hst1, hst2, hst3⟩ := hfind
    refine ⟨st, hst1, hst2, ?_⟩
    intro d hd hnd hT hevs c hc
    rw [hst3, hevs, promptResponses_run n k T d hd hT hnd zeroTallies]
    exact promptResults_hasKey n c hc

/-- C3 witness: two cameras, timeout 5 s, LEDs 0 and 1, each camera
responding within 1 s for every LED. -/
theorem coordinator_strict_order_witness :
    (∀ led, eventsResolve 2 led 5 (promptResponses 2 led 1)) ∧
    (0 : ℕ) ≤ 0 ∧
    ((∃ m, ledsStarted (coordinatorScan 2 5 0 2
        (fun led => promptResponses 2 led 1) (fun _ => false) zeroTallies).2 =
      List.range' 0 m ∧ m ≤ 2 - 0) ∧
    List.Pairwise (· < ·)
      (ledsStarted (coordinatorScan 2 5 0 2
        (fun led => promptResponses 2 led 1) (fun _ => false) zeroTallies).2) ∧
    (∀ p q, (coordinatorScan 2 5 0 2
        (fun led => promptResponses 2 led 1) (fun _ => false) zeroTallies).2
        = p ++ q →
      ScanAction.ledOn (0 + 1) ∈ p →
      ∃ st, ScanAction.barrierReturn 0 st ∈ p ∧ barrierResolved 2 5 st ∧
        (∀ d : ℚ, 0 ≤ d → ((2 : ℕ) : ℚ) * d ≤ 5 → (0 : ℚ) < 5 →
          promptResponses 2 0 1 = promptResponses 2 0 d →
          ∀ c, c < 2 → dictHasKey st.results c = true))) :=
  ⟨fun led => eventsResolve_prompt 2 led 5 1 (by norm_num) (by norm_num)
      (by norm_num),
    Nat.le_refl 0,
    coordinator_strict_order 2 5 0 2 (fun led => promptResponses 2 led 1)
      (fun _ => false) zeroTallies 0
      (fun led => eventsResolve_prompt 2 led 5 1 (by norm_num) (by norm_num)
        (by norm_num))
      (Nat.le_refl 0)⟩

end Marimapper
